import Mathlib

/-!
Verification development for the ai-research-agent repository.

Part 1 embeds the frontend code that is present in the source tree
(the home-page submit handler and the job-page progress log).
Part 2 models the Research Orchestration Engine (pipeline executor,
three-phase generator, report assembler), which is the backend of the
repository; its Python sources are not in the tree, so those definitions
are modelled from the specification, as marked in their doc comments.

Strings that flow through the submit handler are modelled as lists of
characters, so that the JavaScript trim and truthiness semantics can be
stated character by character.
-/

namespace ResearchAgent

/-! ## Frontend: home-page submit handler (src/unnamed/part_002) -/

/-- The whitespace class used by the JavaScript String.trim call in the
submit handler: the ECMAScript WhiteSpace set (tab, vertical tab, form
feed, space, no-break space, byte-order mark, and every Unicode
Space_Separator code point: the ogham space mark, the en-quad through
hair-space range, the narrow and medium mathematical no-break spaces,
and the ideographic space) together with the LineTerminator set (line
feed, carriage return, line separator, paragraph separator). -/
def isJsWhitespace (c : Char) : Bool :=
  c = ' ' || c = '\t' || c = '\n' || c = '\r' || c = '\x0b' || c = '\x0c' ||
  c.toNat = 0xa0 || c.toNat = 0x1680 ||
  (0x2000 ≤ c.toNat && c.toNat ≤ 0x200a) ||
  c.toNat = 0x2028 || c.toNat = 0x2029 || c.toNat = 0x202f ||
  c.toNat = 0x205f || c.toNat = 0x3000 || c.toNat = 0xfeff

/-- JavaScript String.trim on the character-list model: drop whitespace
from both ends. -/
def jsTrim (s : List Char) : List Char :=
  ((s.dropWhile isJsWhitespace).reverse.dropWhile isJsWhitespace).reverse

/-- The externally visible effects of one run of the home-page submit
handler: the optional createJob request payload, and whether the loading
flag was set. -/
structure SubmitEffects where
  createdJob : Option (List Char)
  loadingSet : Bool
deriving DecidableEq

/-- Embedding of handleSubmit from the home page: if the trimmed query is
empty the handler returns immediately with no effect; otherwise it sets
the loading flag and issues createJob with the untrimmed query. -/
def handleSubmit (query : List Char) : SubmitEffects :=
  if jsTrim query = [] then { createdJob := none, loadingSet := false }
  else { createdJob := some query, loadingSet := true }

/-! ## Frontend: job-page progress log (src/web/app/jobs/[id]/page.tsx) -/

/-- Embedding of the logs-accumulation effect on the job page: a falsy
(empty) progress value is ignored; otherwise the progress label is
appended exactly when it differs from the last logged entry. -/
def updateLogs (prev : List String) (progress : String) : List String :=
  if progress = "" then prev
  else if List.getLast? prev = some progress then prev
  else prev ++ [progress]

/-! ## Part 2: the Research Orchestration Engine, modelled from the spec

The backend (FastAPI plus LangGraph pipeline) is absent from the source
tree; only its README, the frontend and the API client are present. The
definitions below therefore follow the specification text for the
missing engine, component by component. -/

/-- Modelled from the spec: the Research Mode enum produced by the missing
backend mode classifier. -/
inductive Mode
  | A
  | B
  | C
deriving DecidableEq

/-- Modelled from the spec: the job status enum of the missing backend job
record; it also appears verbatim in the frontend JobStatus interface. -/
inductive Status
  | pending
  | running
  | completed
  | failed
deriving DecidableEq

/-- Modelled from the spec: the ordered pipeline node set of the missing
backend executor. -/
inductive Node
  | plan
  | search
  | filter
  | crawl
  | extract
  | compare
  | report
deriving DecidableEq

/-- Modelled from the spec: the per-node result status of the missing
backend NodeResult. -/
inductive NodeStatus
  | ok
  | degraded
  | failed
deriving DecidableEq

/-- Modelled from the spec: one cell of the comparison matrix: a short
string, a number, or null. -/
inductive CellValue
  | str (s : String)
  | num (n : Int)
  | null
deriving DecidableEq

/-- One dimension row: entity name to cell value, in JSON object order. -/
abbrev MatrixRow := List (String × CellValue)

/-- Modelled from the spec: the Mode A ComparisonMatrix of the missing
three-phase generator: dimension name to entity row, in JSON object
order. -/
abbrev ComparisonMatrix := List (String × MatrixRow)

/-- Modelled from the spec: the missing backend job record. -/
structure Job where
  query : String
  status : Status
  stepCount : Nat
  maxSteps : Nat
  errors : List String
  progress : String
deriving DecidableEq

/-- Modelled from the spec: the structured JSON half of a ReportArtifact;
the top-level comparison_table key is present exactly when a matrix is
embedded. -/
structure ReportJson where
  comparison_table : Option ComparisonMatrix
deriving DecidableEq

/-- Modelled from the spec: the final normalized ReportArtifact of the
missing Report Assembler. -/
structure ReportArtifact where
  body : String
  json : ReportJson
  terminal : Status
deriving DecidableEq

/-! ### Three-Phase Generator (Mode A), modelled from the spec -/

/-- Modelled from the spec: the Phase 1 skeleton: entity names and
dimension names only, no content cells. -/
structure Skeleton where
  entities : List String
  dims : List String
deriving DecidableEq

/-- Lower-cased code point of one character, for the case-insensitive
comparison of the Phase 1 validator. -/
def lowerCode (c : Char) : Nat :=
  if 65 ≤ c.toNat ∧ c.toNat ≤ 90 then c.toNat + 32 else c.toNat

/-- Case-insensitive de-duplication check used by the Phase 1 validator. -/
def nodupLower : List String → Bool
  | [] => true
  | a :: rest =>
      rest.all (fun b => a.data.map lowerCode != b.data.map lowerCode) &&
      nodupLower rest

/-- Length bound accepted for one skeleton name. -/
def nameBound : Nat := 40

/-- Modelled from the spec: programmatic validation of a Phase 1 skeleton
of the missing generator: non-empty de-duplicated lists of at most five
names within length bounds. -/
def validSkeleton (sk : Skeleton) : Bool :=
  !sk.entities.isEmpty && !sk.dims.isEmpty &&
  sk.entities.length ≤ 5 && sk.dims.length ≤ 5 &&
  nodupLower sk.entities && nodupLower sk.dims &&
  sk.entities.all (fun s => s.length ≤ nameBound) &&
  sk.dims.all (fun s => s.length ≤ nameBound)

/-- Modelled from the spec: Phase 1 under its retry budget: generation
attempts are validated in order, the first valid skeleton wins, and
exhausting the budget fails the phase. -/
def phase1 : Nat → List Skeleton → Option Skeleton
  | 0, _ => none
  | _ + 1, [] => none
  | n + 1, a :: rest => if validSkeleton a then some a else phase1 n rest

/-- Modelled from the spec: the Generation Port response for one Phase 2
cell: an in-key value, a response that introduced keys outside the
skeleton (rejected), or a generation failure. -/
inductive CellAnswer
  | value (v : String)
  | extraKeys
  | failedGen
deriving DecidableEq

/-- Hard cap on the length of one cell value. -/
def cellCap : Nat := 20

/-- Modelled from the spec: the final value of one Phase 2 cell: an
accepted answer is truncated to the cap, and a rejected or failed answer
becomes the null cell after retry exhaustion. -/
def fillCell : CellAnswer → CellValue
  | CellAnswer.value v => CellValue.str (String.mk (v.data.take cellCap))
  | CellAnswer.extraKeys => CellValue.null
  | CellAnswer.failedGen => CellValue.null

/-- Modelled from the spec: Phase 2 fills every cell of the skeleton and
never adds or removes a row or column. -/
def phase2 (sk : Skeleton) (answer : String → String → CellAnswer) :
    ComparisonMatrix :=
  sk.dims.map (fun d => (d, sk.entities.map (fun e => (e, fillCell (answer d e)))))

/-- Modelled from the spec: the missing three-phase generator: skeleton,
cell fill, then the prose summary; a Phase 1 failure fails the whole
generator. -/
def threePhase (retries : Nat) (attempts : List Skeleton)
    (answer : String → String → CellAnswer) (summary : String) :
    Option (ComparisonMatrix × String) :=
  match phase1 retries attempts with
  | none => none
  | some sk => some (phase2 sk answer, summary)

/-! ### Ports, guardrails and report assembly, modelled from the spec -/

/-- Modelled from the spec: one job run worth of abstract port behavior of
the missing backend: the outcome and error text of each plain node, the
number of successfully crawled sources, the Phase 1 attempts, the Phase 2
answers, the Phase 3 summary, whether comparable entities were found, and
the free-text analysis and judgment bodies. -/
structure PortTrace where
  nodeStatus : Node → NodeStatus
  nodeError : Node → String
  crawlSuccessCount : Nat
  skeletonAttempts : List Skeleton
  cellAnswer : String → String → CellAnswer
  summaryText : String
  comparablesFound : Bool
  analysisText : String
  judgmentText : String

/-- Modelled from the spec: the guardrail policy parameters the missing
executor enforces at node boundaries. -/
structure GuardrailPolicy where
  maxSteps : Nat
  skeletonRetries : Nat

/-- Modelled from the spec: a crawl that retrieves zero sources is a
failed retrieval; any other node outcome is the port outcome itself. -/
def effectiveStatus (t : PortTrace) (n : Node) : NodeStatus :=
  if n = Node.crawl ∧ t.crawlSuccessCount = 0 then NodeStatus.failed
  else t.nodeStatus n

/-- Modelled from the spec: the Mode C statement that reclassifies an
absence of data as a substantive finding. -/
def immaturityStatement : String :=
  "The market appears unproven or immature: no comparable entities or sufficient market signal could be identified, and that absence of data is itself the central finding."

/-- Modelled from the spec: the Mode B statement emitted when the
retrieval set is completely empty. -/
def emptyRetrievalStatement : String :=
  "Limitation: no sources could be successfully retrieved for this query; the landscape analysis is degraded and based on general knowledge only."

/-- Modelled from the spec: the body composed by the Report node of the
missing executor; Mode A renders the Phase 3 summary, Mode B states the
limitation when nothing was retrieved, and Mode C turns missing
comparables into a judgment. -/
def composeBody (mode : Mode) (t : PortTrace) (summary : String) : String :=
  match mode with
  | Mode.A => "# Comparison Report\n\n" ++ summary
  | Mode.B =>
      if t.crawlSuccessCount = 0 then
        "# Landscape Report\n\n" ++ emptyRetrievalStatement
      else
        "# Landscape Report\n\n" ++ t.analysisText
  | Mode.C =>
      if t.comparablesFound then
        "# Judgment Report\n\n" ++ t.judgmentText
      else
        "# Judgment Report\n\n" ++ (immaturityStatement ++ ("\n\n" ++ t.judgmentText))

/-- A body states market immaturity when the immaturity statement occurs
in it verbatim. -/
def statesImmaturity (b : String) : Prop :=
  ∃ pre post, b = pre ++ (immaturityStatement ++ post)

/-- Modelled from the spec: the input contract of the missing Report
Assembler. -/
structure AssemblerInput where
  mode : Mode
  matrix : Option ComparisonMatrix
  body : Option String

/-- Modelled from the spec: the clearly marked body of a failure
artifact. -/
def failureNotice : String :=
  "REPORT GENERATION FAILED: no report content was produced for this job; consult the accumulated error list."

/-- Modelled from the spec: the missing Report Assembler: normalizes the
report body and embeds the comparison matrix verbatim; missing or
degenerate input produces the clearly marked failure artifact, never an
empty body. -/
def assembleReport (inp : AssemblerInput) : ReportArtifact :=
  match inp.body with
  | none =>
      { body := failureNotice, json := { comparison_table := none },
        terminal := Status.failed }
  | some b =>
      if b = "" then
        { body := failureNotice, json := { comparison_table := none },
          terminal := Status.failed }
      else
        { body := b, json := { comparison_table := inp.matrix },
          terminal := Status.completed }

/-- Modelled from the spec: the external job store, keyed by job id. -/
def JobStore := String → Option ReportArtifact

/-- Modelled from the spec: the atomic per-job upsert of the job store. -/
def upsert (st : JobStore) (jobId : String) (a : ReportArtifact) : JobStore :=
  fun k => if k = jobId then some a else st k

/-- Modelled from the spec: one Report Assembler call as the missing
backend performs it: compute the artifact and persist it. -/
def assembleAndPersist (jobId : String) (inp : AssemblerInput) (st : JobStore) :
    ReportArtifact × JobStore :=
  (assembleReport inp, upsert st jobId (assembleReport inp))

/-! ### Pipeline Executor state machine, modelled from the spec -/

/-- Modelled from the spec: the full ordered node sequence of the missing
pipeline executor. -/
def baseNodes : List Node :=
  [Node.plan, Node.search, Node.filter, Node.crawl, Node.extract,
   Node.compare, Node.report]

/-- Modelled from the spec: the executor state for one job of the missing
backend: mode, policy, port trace, job record, the remaining node
sequence, and the artifacts under construction. -/
structure ExecState where
  mode : Mode
  policy : GuardrailPolicy
  trace : PortTrace
  job : Job
  remaining : List Node
  matrix : Option ComparisonMatrix
  summary : String
  artifact : Option ReportArtifact

def isTerminal : Status → Bool
  | Status.completed => true
  | Status.failed => true
  | _ => false

/-- Human-readable progress label of a node. -/
def nodeLabel : Node → String
  | Node.plan => "planning research dimensions"
  | Node.search => "searching for sources"
  | Node.filter => "filtering sources"
  | Node.crawl => "crawling pages"
  | Node.extract => "extracting structured data"
  | Node.compare => "comparing"
  | Node.report => "writing the report"

/-- Error string recorded for a failed node. -/
def recordedError (n : Node) (msg : String) : String :=
  nodeLabel n ++ " failed: " ++ msg

/-- Modelled from the spec: abort the job: the status becomes Failed, the
triggering error is appended, and the failure artifact is attached. -/
def failJob (s : ExecState) (err : String) : ExecState :=
  { s with
    job := { s.job with
             status := Status.failed,
             errors := s.job.errors ++ [err] },
    artifact := some (assembleReport
                       { mode := s.mode, matrix := none, body := none }) }

/-- Modelled from the spec: absorb a recoverable node failure: a recorded
error is appended and execution continues. -/
def absorbFailure (s : ExecState) (n : Node) : ExecState :=
  { s with
    job := { s.job with
      errors := s.job.errors ++ [recordedError n (s.trace.nodeError n)] } }

/-- Modelled from the spec: execute one of the plain nodes (plan, search,
filter, crawl, extract) under the per-mode failure policy: Mode A aborts
on any failure, Modes B and C absorb retrieval failures and abort on the
rest. -/
def plainNode (s : ExecState) (n : Node) : ExecState :=
  if effectiveStatus s.trace n = NodeStatus.failed then
    if s.mode ≠ Mode.A ∧ (n = Node.crawl ∨ n = Node.extract) then
      absorbFailure s n
    else failJob s (recordedError n (s.trace.nodeError n))
  else s

/-- Modelled from the spec: execute one node: Compare runs the three-phase
generator in Mode A, is optional in Mode B and is skipped in Mode C; a
successful Report composes the body and hands it to the assembler, whose
acceptance completes the job. -/
def execNode (s : ExecState) (n : Node) : ExecState :=
  match n with
  | Node.compare =>
      match s.mode with
      | Mode.A =>
          match threePhase s.policy.skeletonRetries s.trace.skeletonAttempts
              s.trace.cellAnswer s.trace.summaryText with
          | none =>
              failJob s "StructureValidationFailed: skeleton retries exhausted"
          | some pair => { s with matrix := some pair.1, summary := pair.2 }
      | Mode.B => s
      | Mode.C => s
  | Node.report =>
      if effectiveStatus s.trace Node.report = NodeStatus.failed then
        { s with
          artifact := some (assembleReport
                             { mode := s.mode, matrix := none, body := none }),
          job := { s.job with
                   status := Status.failed,
                   errors := s.job.errors ++
                     [recordedError Node.report (s.trace.nodeError Node.report)] } }
      else
        { s with
          artifact := some (assembleReport
                             { mode := s.mode, matrix := s.matrix,
                               body := some (composeBody s.mode s.trace s.summary) }),
          job := { s.job with
                   status := (assembleReport
                               { mode := s.mode, matrix := s.matrix,
                                 body := some (composeBody s.mode s.trace s.summary) }).terminal } }
  | n => plainNode s n

/-- Modelled from the spec: one executor step: terminal states are
absorbing, a Pending job starts Running, and a Running job checks the
step budget at the node boundary before executing the next node. -/
def execStep (s : ExecState) : ExecState :=
  if isTerminal s.job.status then s
  else if s.job.status = Status.pending then
    { s with job := { s.job with status := Status.running, progress := "started" } }
  else
    match s.remaining with
    | [] => failJob s "internal: node sequence exhausted without a report"
    | n :: rest =>
        if s.job.maxSteps < s.job.stepCount + 1 then
          failJob s "GuardrailExceeded: step budget exceeded"
        else
          execNode
            { s with
              remaining := rest,
              job := { s.job with
                       stepCount := s.job.stepCount + 1,
                       progress := nodeLabel n } } n

/-- Iterated executor steps: the sequence of observable job states. -/
def runSteps : Nat → ExecState → ExecState
  | 0, s => s
  | n + 1, s => runSteps n (execStep s)

/-- Modelled from the spec: the initial executor state for an accepted
query. -/
def initState (mode : Mode) (p : GuardrailPolicy) (t : PortTrace) (q : String) :
    ExecState :=
  { mode := mode, policy := p, trace := t,
    job := { query := q, status := Status.pending, stepCount := 0,
             maxSteps := p.maxSteps, errors := [], progress := "queued" },
    remaining := baseNodes, matrix := none, summary := "", artifact := none }

/-- Modelled from the spec: a whole job run: the start transition plus the
seven pipeline nodes. -/
def runJob (mode : Mode) (p : GuardrailPolicy) (t : PortTrace) (q : String) :
    ExecState :=
  runSteps 8 (initState mode p t q)

/-! ### Concrete fixtures used by the closed witnesses -/

/-- A small valid skeleton used by concrete witnesses. -/
def okSkeleton : Skeleton :=
  { entities := ["Alpha", "Beta"], dims := ["Price", "Speed"] }

/-- A fully successful port trace used by concrete witnesses. -/
def okTrace : PortTrace :=
  { nodeStatus := fun _ => NodeStatus.ok,
    nodeError := fun _ => "network error",
    crawlSuccessCount := 3,
    skeletonAttempts := [okSkeleton],
    cellAnswer := fun _ _ => CellAnswer.value "good",
    summaryText := "Alpha suits teams; Beta suits individuals.",
    comparablesFound := true,
    analysisText := "The market splits into two camps.",
    judgmentText := "The concept is promising." }

/-- A port trace with a failing search node and no retrievable source,
used by concrete witnesses. -/
def brokenTrace : PortTrace :=
  { nodeStatus := fun n => if n = Node.search then NodeStatus.failed else NodeStatus.ok,
    nodeError := fun _ => "timeout",
    crawlSuccessCount := 0,
    skeletonAttempts := [],
    cellAnswer := fun _ _ => CellAnswer.failedGen,
    summaryText := "",
    comparablesFound := false,
    analysisText := "",
    judgmentText := "No market signal was found." }

/-- A port trace whose retrieval finds nothing, used by concrete
witnesses: every node call succeeds but zero sources crawl, no comparable
entities exist, and Phase 1 never returns a skeleton. -/
def noSourceTrace : PortTrace :=
  { nodeStatus := fun _ => NodeStatus.ok,
    nodeError := fun _ => "no results",
    crawlSuccessCount := 0,
    skeletonAttempts := [],
    cellAnswer := fun _ _ => CellAnswer.failedGen,
    summaryText := "",
    comparablesFound := false,
    analysisText := "",
    judgmentText := "No comparable products exist yet." }

/-- A guardrail policy with a generous step budget, used by witnesses. -/
def okPolicy : GuardrailPolicy :=
  { maxSteps := 10, skeletonRetries := 2 }

/-! ### Invariants, ranks and shape predicates used by the theorems -/

/-- The budget invariant: the recorded step count stays within the fixed
step budget. -/
def BudgetInv (M : Nat) (s : ExecState) : Prop :=
  s.job.stepCount ≤ s.job.maxSteps ∧ s.job.maxSteps = M

/-- Rank of a job status along the one-way state machine. -/
def statusRank : Status → Nat
  | Status.pending => 0
  | Status.running => 1
  | Status.completed => 2
  | Status.failed => 2

/-- A cell value is short: a string cell respects the hard cap. -/
def cellShort : CellValue → Prop
  | CellValue.str s => s.length ≤ cellCap
  | CellValue.num _ => True
  | CellValue.null => True

/-- A matrix is exactly the Phase 2 fill of the skeleton that Phase 1
validated: its structure was frozen before any content was requested. -/
def MatrixGood (p : GuardrailPolicy) (t : PortTrace) (M : ComparisonMatrix) : Prop :=
  ∃ sk, phase1 p.skeletonRetries t.skeletonAttempts = some sk ∧
    M = phase2 sk t.cellAnswer

/-- The executor invariant behind the Mode A structural guarantee: the
remaining node sequence is a suffix of the pipeline, and in Mode A a live
job either still has the Compare node ahead of it or already carries a
good matrix, while a Completed job carries an artifact embedding a good
matrix. -/
def ExecInvA (p : GuardrailPolicy) (t : PortTrace) (s : ExecState) : Prop :=
  s.policy = p ∧ s.trace = t ∧
  s.remaining ∈ List.tails baseNodes ∧
  (s.mode = Mode.A →
    (isTerminal s.job.status = false →
      Node.compare ∈ s.remaining ∨
      ∃ M, s.matrix = some M ∧ MatrixGood p t M) ∧
    (s.job.status = Status.completed →
      ∃ a, s.artifact = some a ∧
        ∃ M, a.json.comparison_table = some M ∧ MatrixGood p t M))

/-! ### Lemmas about the frontend embedding -/

theorem jsTrim_eq_nil_iff (s : List Char) :
    jsTrim s = [] ↔ ∀ c ∈ s, isJsWhitespace c = true := by
  unfold jsTrim
  rw [List.reverse_eq_nil_iff, List.dropWhile_eq_nil_iff]
  constructor
  · intro h c hc
    have hsplit := List.takeWhile_append_dropWhile (p := isJsWhitespace) (l := s)
    rcases List.mem_append.mp (by rw [hsplit]; exact hc) with h1 | h2
    · exact List.mem_takeWhile_imp h1
    · exact h c (List.mem_reverse.mpr h2)
  · intro h c hc
    exact h c ((List.dropWhile_sublist isJsWhitespace).subset (List.mem_reverse.mp hc))

/-- Claim C9: a createJob request is issued if and only if the query has at
least one non-whitespace character; a whitespace-only query produces no
effect at all. -/
theorem claim_C9_submit_iff_nonblank (q : List Char) :
    ((handleSubmit q).createdJob.isSome = true ↔
      ∃ c ∈ q, isJsWhitespace c = false) ∧
    ((¬ ∃ c ∈ q, isJsWhitespace c = false) →
      handleSubmit q = { createdJob := none, loadingSet := false }) := by
  have hiff := jsTrim_eq_nil_iff q
  by_cases he : jsTrim q = []
  · have hall := hiff.mp he
    have hno : ¬ ∃ c ∈ q, isJsWhitespace c = false := by
      rintro ⟨c, hc, hw⟩
      rw [hall c hc] at hw
      cases hw
    refine ⟨?_, fun _ => ?_⟩
    · simp [handleSubmit, he, hno]
    · simp [handleSubmit, he]
  · have hex : ∃ c ∈ q, isJsWhitespace c = false := by
      have hnall := mt hiff.mpr he
      push_neg at hnall
      rcases hnall with ⟨c, hc, hw⟩
      exact ⟨c, hc, by simpa using hw⟩
    refine ⟨?_, fun hno => absurd hex hno⟩
    simp [handleSubmit, he, hex]

/-- Closed witness for claim C9 at a concrete whitespace-only query made
of a space, a tab and the full-width ideographic space. -/
theorem claim_C9_witness :
    ((handleSubmit [' ', '\t', '\u3000']).createdJob.isSome = true ↔
      ∃ c ∈ [' ', '\t', '\u3000'], isJsWhitespace c = false) ∧
    ((¬ ∃ c ∈ [' ', '\t', '\u3000'], isJsWhitespace c = false) →
      handleSubmit [' ', '\t', '\u3000']
        = { createdJob := none, loadingSet := false }) :=
  claim_C9_submit_iff_nonblank [' ', '\t', '\u3000']

/-- Claim C10 counterexample: with log ["a"] and the empty progress value, the
empty value differs from the last logged entry yet is not appended, so
the claim that a label is appended exactly when it differs from the last
entry fails at this input. -/
theorem claim_C10_counterexample :
    List.getLast? ["a"] ≠ some "" ∧ updateLogs ["a"] "" ≠ ["a"] ++ [""] := by
  constructor
  · decide
  · unfold updateLogs
    simp

/-- Claim C10 as amended: an empty progress value is ignored; a non-empty
progress label is appended exactly when it differs from the last logged
entry; the previous entries are always preserved as a prefix, and a log
free of consecutive duplicates stays free of consecutive duplicates. -/
theorem claim_C10_amended_log_append (prev : List String) (p : String) :
    (p ≠ "" → updateLogs prev p =
      if List.getLast? prev = some p then prev else prev ++ [p]) ∧
    (p = "" → updateLogs prev p = prev) ∧
    (∃ t, updateLogs prev p = prev ++ t) ∧
    (List.Chain' (fun a b => a ≠ b) prev →
      List.Chain' (fun a b => a ≠ b) (updateLogs prev p)) := by
  refine ⟨?_, ?_, ?_, ?_⟩
  · intro hp
    unfold updateLogs
    rw [if_neg hp]
  · intro hp
    unfold updateLogs
    rw [if_pos hp]
  · unfold updateLogs
    by_cases hp : p = ""
    · exact ⟨[], by rw [if_pos hp, List.append_nil]⟩
    · rw [if_neg hp]
      by_cases hl : List.getLast? prev = some p
      · exact ⟨[], by rw [if_pos hl, List.append_nil]⟩
      · exact ⟨[p], by rw [if_neg hl]⟩
  · intro hch
    unfold updateLogs
    by_cases hp : p = ""
    · rwa [if_pos hp]
    · rw [if_neg hp]
      by_cases hl : List.getLast? prev = some p
      · rwa [if_pos hl]
      · rw [if_neg hl]
        rw [List.chain'_append]
        refine ⟨hch, List.chain'_singleton p, ?_⟩
        intro x hx y hy
        have hy2 : p = y := by simpa using hy
        have hx2 : List.getLast? prev = some x := Option.mem_def.mp hx
        intro hxy
        exact hl (by rw [hx2, hxy, ← hy2])

/-- Closed witness for claim C10 as amended, at a concrete log and label. -/
theorem claim_C10_witness :
    ("b" ≠ "" → updateLogs ["a"] "b" =
      if List.getLast? ["a"] = some "b" then ["a"] else ["a"] ++ ["b"]) ∧
    ("b" = "" → updateLogs ["a"] "b" = ["a"]) ∧
    (∃ t, updateLogs ["a"] "b" = ["a"] ++ t) ∧
    (List.Chain' (fun a b => a ≠ b) ["a"] →
      List.Chain' (fun a b => a ≠ b) (updateLogs ["a"] "b")) :=
  claim_C10_amended_log_append ["a"] "b"

/-! ### Report Assembler lemmas -/

theorem failureNotice_ne_empty : failureNotice ≠ "" := by decide

theorem assembleReport_none (m : Mode) (mat : Option ComparisonMatrix) :
    assembleReport { mode := m, matrix := mat, body := none } =
      { body := failureNotice, json := { comparison_table := none },
        terminal := Status.failed } := rfl

theorem assembleReport_some_empty (m : Mode) (mat : Option ComparisonMatrix) :
    assembleReport { mode := m, matrix := mat, body := some "" } =
      { body := failureNotice, json := { comparison_table := none },
        terminal := Status.failed } := rfl

theorem assembleReport_some (m : Mode) (mat : Option ComparisonMatrix)
    (b : String) (h : b ≠ "") :
    assembleReport { mode := m, matrix := mat, body := some b } =
      { body := b, json := { comparison_table := mat },
        terminal := Status.completed } := by
  unfold assembleReport
  simp [h]

/-- Claim C7: the Report Assembler is deterministic and idempotent: a
second call on the same inputs returns the byte-identical artifact and
leaves the persisted store unchanged. -/
theorem claim_C7_assembler_idempotent (jobId : String) (inp : AssemblerInput)
    (st : JobStore) :
    (assembleAndPersist jobId inp ((assembleAndPersist jobId inp st).2)).1
      = (assembleAndPersist jobId inp st).1 ∧
    (assembleAndPersist jobId inp ((assembleAndPersist jobId inp st).2)).2
      = (assembleAndPersist jobId inp st).2 := by
  refine ⟨rfl, ?_⟩
  funext k
  unfold assembleAndPersist upsert
  by_cases h : k = jobId <;> simp [h]

/-- Claim C8: the assembler never emits an empty body, and missing or
degenerate input yields the clearly marked failure artifact, so consumers
can distinguish the two. -/
theorem claim_C8_no_empty_body (inp : AssemblerInput) :
    (assembleReport inp).body ≠ "" ∧
    ((inp.body = none ∨ inp.body = some "") →
      (assembleReport inp).terminal = Status.failed ∧
      (assembleReport inp).body = failureNotice) := by
  obtain ⟨m, mat, b⟩ := inp
  cases b with
  | none =>
      rw [assembleReport_none]
      exact ⟨failureNotice_ne_empty, fun _ => ⟨rfl, rfl⟩⟩
  | some b =>
      by_cases hb : b = ""
      · subst hb
        rw [assembleReport_some_empty]
        exact ⟨failureNotice_ne_empty, fun _ => ⟨rfl, rfl⟩⟩
      · rw [assembleReport_some m mat b hb]
        refine ⟨hb, fun h => ?_⟩
        rcases h with h | h
        · exact Option.noConfusion h
        · exact absurd (Option.some.inj h) hb

/-- Closed witness for claim C8 at the degenerate input with no body. -/
theorem claim_C8_witness :
    (assembleReport { mode := Mode.B, matrix := none, body := none }).body ≠ "" ∧
    ((({ mode := Mode.B, matrix := none, body := none } : AssemblerInput).body = none ∨
      ({ mode := Mode.B, matrix := none, body := none } : AssemblerInput).body = some "") →
      (assembleReport { mode := Mode.B, matrix := none, body := none }).terminal
          = Status.failed ∧
      (assembleReport { mode := Mode.B, matrix := none, body := none }).body
          = failureNotice) :=
  claim_C8_no_empty_body { mode := Mode.B, matrix := none, body := none }

/-! ### Guardrail enforcement: the step budget invariant -/

theorem execNode_counts (s : ExecState) (n : Node) :
    (execNode s n).job.stepCount = s.job.stepCount ∧
    (execNode s n).job.maxSteps = s.job.maxSteps := by
  unfold execNode plainNode failJob absorbFailure
  cases n <;> cases hm : s.mode <;> (repeat' split) <;> simp

theorem execNode_budget {M : Nat} (s : ExecState) (n : Node)
    (h : BudgetInv M s) : BudgetInv M (execNode s n) := by
  obtain ⟨h1, h2⟩ := h
  have hc := execNode_counts s n
  exact ⟨by rw [hc.1, hc.2]; exact h1, by rw [hc.2]; exact h2⟩

theorem execStep_budget {M : Nat} (s : ExecState) (h : BudgetInv M s) :
    BudgetInv M (execStep s) := by
  obtain ⟨h1, h2⟩ := h
  unfold execStep
  split
  · exact ⟨h1, h2⟩
  · split
    · exact ⟨h1, h2⟩
    · split
      · exact ⟨h1, h2⟩
      · split
        · exact ⟨h1, h2⟩
        · apply execNode_budget
          exact ⟨show s.job.stepCount + 1 ≤ s.job.maxSteps by omega, h2⟩

theorem runSteps_budget {M : Nat} (k : Nat) (s : ExecState)
    (h : BudgetInv M s) : BudgetInv M (runSteps k s) := by
  induction k generalizing s with
  | zero => exact h
  | succ k ih => exact ih (execStep s) (execStep_budget s h)

/-- Claim C6: given a step budget, the executor never records more node
executions than the budget allows, at every observable point of every
run, for every mode. -/
theorem claim_C6_step_budget (mode : Mode) (p : GuardrailPolicy)
    (t : PortTrace) (q : String) (k : Nat) :
    (runSteps k (initState mode p t q)).job.stepCount ≤ p.maxSteps ∧
    (runJob mode p t q).job.stepCount ≤ p.maxSteps := by
  have h0 : BudgetInv p.maxSteps (initState mode p t q) := ⟨Nat.zero_le _, rfl⟩
  have h1 := runSteps_budget k (initState mode p t q) h0
  have h2 := runSteps_budget 8 (initState mode p t q) h0
  exact ⟨le_trans h1.1 (le_of_eq h1.2), le_trans h2.1 (le_of_eq h2.2)⟩

/-! ### Status monotonicity -/

theorem execStep_of_terminal (s : ExecState)
    (h : isTerminal s.job.status = true) : execStep s = s := by
  unfold execStep
  rw [if_pos h]

theorem runSteps_succ (n : Nat) (s : ExecState) :
    runSteps (n + 1) s = runSteps n (execStep s) := rfl

theorem runSteps_add (a b : Nat) (s : ExecState) :
    runSteps (a + b) s = runSteps b (runSteps a s) := by
  induction a generalizing s with
  | zero => rw [Nat.zero_add]; rfl
  | succ a ih =>
      have : a + 1 + b = (a + b) + 1 := by omega
      rw [this, runSteps_succ, ih (execStep s), runSteps_succ]

theorem runSteps_of_terminal (k : Nat) (s : ExecState)
    (h : isTerminal s.job.status = true) : runSteps k s = s := by
  induction k generalizing s with
  | zero => rfl
  | succ k ih => rw [runSteps_succ, execStep_of_terminal s h]; exact ih s h

theorem assembleReport_terminal (inp : AssemblerInput) :
    (assembleReport inp).terminal = Status.failed ∨
    (assembleReport inp).terminal = Status.completed := by
  unfold assembleReport
  (repeat' split) <;> simp

theorem assembleReport_terminal_ne_pending (inp : AssemblerInput) :
    (assembleReport inp).terminal ≠ Status.pending := by
  rcases assembleReport_terminal inp with h | h <;> simp [h]

theorem execNode_status_ne_pending (s : ExecState) (n : Node)
    (h : s.job.status ≠ Status.pending) :
    (execNode s n).job.status ≠ Status.pending := by
  unfold execNode plainNode failJob absorbFailure
  cases n <;> cases hm : s.mode <;> (repeat' split) <;>
    first
      | exact h
      | exact assembleReport_terminal_ne_pending _
      | simp

theorem statusRank_pos_of_ne_pending (st : Status)
    (h : st ≠ Status.pending) : 1 ≤ statusRank st := by
  cases st <;> simp [statusRank] at h ⊢

theorem execStep_status_mono (s : ExecState) :
    statusRank s.job.status ≤ statusRank (execStep s).job.status := by
  cases h : s.job.status with
  | pending =>
      rw [show statusRank Status.pending = 0 from rfl]
      exact Nat.zero_le _
  | running =>
      have hne : (execStep s).job.status ≠ Status.pending := by
        unfold execStep
        rw [if_neg (by rw [h]; decide), if_neg (by rw [h]; decide)]
        split
        · simp [failJob]
        · split
          · simp [failJob]
          · exact execNode_status_ne_pending _ _ (by simp [h])
      rw [show statusRank Status.running = 1 from rfl]
      exact statusRank_pos_of_ne_pending _ hne
  | completed =>
      rw [execStep_of_terminal s (by rw [h]; rfl), h]
  | failed =>
      rw [execStep_of_terminal s (by rw [h]; rfl), h]

theorem runSteps_status_mono (k : Nat) (s : ExecState) :
    statusRank s.job.status ≤ statusRank (runSteps k s).job.status := by
  induction k generalizing s with
  | zero => exact le_refl _
  | succ k ih =>
      rw [runSteps_succ]
      exact le_trans (execStep_status_mono s) (ih (execStep s))

/-- Claim C1: along the observable state sequence of any job, in any
mode, the status only moves forward along the one-way state machine, and
once the job is terminal the whole executor state, its job record
included, is never mutated again. -/
theorem claim_C1_status_monotone (mode : Mode) (p : GuardrailPolicy)
    (t : PortTrace) (q : String) (n m : Nat) (h : n ≤ m) :
    statusRank (runSteps n (initState mode p t q)).job.status ≤
      statusRank (runSteps m (initState mode p t q)).job.status ∧
    (isTerminal (runSteps n (initState mode p t q)).job.status = true →
      runSteps m (initState mode p t q) = runSteps n (initState mode p t q)) := by
  obtain ⟨k, rfl⟩ := Nat.le.dest h
  rw [runSteps_add]
  exact ⟨runSteps_status_mono k _, fun ht => runSteps_of_terminal k _ ht⟩

/-- Closed witness for claim C1 on a concrete run, observed after two and
after eight steps. -/
theorem claim_C1_witness :
    statusRank (runSteps 2 (initState Mode.A okPolicy okTrace "q")).job.status ≤
      statusRank (runSteps 8 (initState Mode.A okPolicy okTrace "q")).job.status ∧
    (isTerminal (runSteps 2 (initState Mode.A okPolicy okTrace "q")).job.status = true →
      runSteps 8 (initState Mode.A okPolicy okTrace "q") =
        runSteps 2 (initState Mode.A okPolicy okTrace "q")) :=
  claim_C1_status_monotone Mode.A okPolicy okTrace "q" 2 8 (by omega)

/-! ### Whole-run computation lemmas -/

theorem runJob_eq (mode : Mode) (p : GuardrailPolicy) (t : PortTrace) (q : String) :
    runJob mode p t q =
      execStep (execStep (execStep (execStep (execStep (execStep
        (execStep (execStep (initState mode p t q)))))))) := rfl

theorem append_ne_empty_left (a b : String) (h : a ≠ "") : a ++ b ≠ "" := by
  intro he
  apply h
  apply String.ext
  have hd : (a ++ b).data = [] := by rw [he]
  rw [String.data_append] at hd
  exact List.append_eq_nil.mp hd |>.1

/-- Claim C4: a Mode B job whose crawl retrieves zero sources, all its
non-retrieval nodes succeeding, still reaches Completed with a non-empty
report body stating the limitation and a non-empty error list. -/
theorem claim_C4_modeB_graceful (p : GuardrailPolicy) (t : PortTrace) (q : String)
    (hmax : 7 ≤ p.maxSteps)
    (hplan : t.nodeStatus Node.plan ≠ NodeStatus.failed)
    (hsearch : t.nodeStatus Node.search ≠ NodeStatus.failed)
    (hfilter : t.nodeStatus Node.filter ≠ NodeStatus.failed)
    (hreport : t.nodeStatus Node.report ≠ NodeStatus.failed)
    (hzero : t.crawlSuccessCount = 0) :
    (runJob Mode.B p t q).job.status = Status.completed ∧
    (runJob Mode.B p t q).artifact.map ReportArtifact.body
      = some ("# Landscape Report\n\n" ++ emptyRetrievalStatement) ∧
    ("# Landscape Report\n\n" ++ emptyRetrievalStatement : String) ≠ "" ∧
    (runJob Mode.B p t q).job.errors ≠ [] := by
  have g1 : ¬ p.maxSteps < 1 := by omega
  have g2 : ¬ p.maxSteps < 2 := by omega
  have g3 : ¬ p.maxSteps < 3 := by omega
  have g4 : ¬ p.maxSteps < 4 := by omega
  have g5 : ¬ p.maxSteps < 5 := by omega
  have g6 : ¬ p.maxSteps < 6 := by omega
  have g7 : ¬ p.maxSteps < 7 := by omega
  have heplan : effectiveStatus t Node.plan ≠ NodeStatus.failed := by
    simpa [effectiveStatus] using hplan
  have hesearch : effectiveStatus t Node.search ≠ NodeStatus.failed := by
    simpa [effectiveStatus] using hsearch
  have hefilter : effectiveStatus t Node.filter ≠ NodeStatus.failed := by
    simpa [effectiveStatus] using hfilter
  have hereport : effectiveStatus t Node.report ≠ NodeStatus.failed := by
    simpa [effectiveStatus] using hreport
  have hecrawl : effectiveStatus t Node.crawl = NodeStatus.failed := by
    simp [effectiveStatus, hzero]
  have hbody : ("# Landscape Report\n\n" ++ emptyRetrievalStatement : String) ≠ "" := by
    decide
  by_cases hex : effectiveStatus t Node.extract = NodeStatus.failed <;>
    (rw [runJob_eq];
     simp [execStep, execNode, plainNode, initState, isTerminal, baseNodes,
       failJob, absorbFailure, composeBody, nodeLabel, recordedError,
       assembleReport, hzero, heplan, hesearch, hefilter, hereport, hecrawl,
       hex, hbody, g1, g2, g3, g4, g5, g6, g7])

/-- Closed witness for claim C4: a concrete Mode B run with zero crawled
sources completes with the limitation body and a non-empty error list. -/
theorem claim_C4_witness :
    (runJob Mode.B okPolicy noSourceTrace "q").job.status = Status.completed ∧
    (runJob Mode.B okPolicy noSourceTrace "q").artifact.map ReportArtifact.body
      = some ("# Landscape Report\n\n" ++ emptyRetrievalStatement) ∧
    ("# Landscape Report\n\n" ++ emptyRetrievalStatement : String) ≠ "" ∧
    (runJob Mode.B okPolicy noSourceTrace "q").job.errors ≠ [] :=
  claim_C4_modeB_graceful okPolicy noSourceTrace "q" (by decide) (by decide)
    (by decide) (by decide) (by decide) (by decide)

/-- Claim C5: a Mode C job that finds no comparable entities, all its
non-retrieval nodes succeeding, does not fail: it completes with a report
body that states the market immaturity and uses the absence of data as
the finding. -/
theorem claim_C5_modeC_judgment (p : GuardrailPolicy) (t : PortTrace) (q : String)
    (hmax : 7 ≤ p.maxSteps)
    (hplan : t.nodeStatus Node.plan ≠ NodeStatus.failed)
    (hsearch : t.nodeStatus Node.search ≠ NodeStatus.failed)
    (hfilter : t.nodeStatus Node.filter ≠ NodeStatus.failed)
    (hreport : t.nodeStatus Node.report ≠ NodeStatus.failed)
    (hcomp : t.comparablesFound = false) :
    (runJob Mode.C p t q).job.status = Status.completed ∧
    (runJob Mode.C p t q).artifact.map ReportArtifact.body
      = some ("# Judgment Report\n\n" ++
          (immaturityStatement ++ ("\n\n" ++ t.judgmentText))) ∧
    statesImmaturity ("# Judgment Report\n\n" ++
      (immaturityStatement ++ ("\n\n" ++ t.judgmentText))) := by
  have g1 : ¬ p.maxSteps < 1 := by omega
  have g2 : ¬ p.maxSteps < 2 := by omega
  have g3 : ¬ p.maxSteps < 3 := by omega
  have g4 : ¬ p.maxSteps < 4 := by omega
  have g5 : ¬ p.maxSteps < 5 := by omega
  have g6 : ¬ p.maxSteps < 6 := by omega
  have g7 : ¬ p.maxSteps < 7 := by omega
  have heplan : effectiveStatus t Node.plan ≠ NodeStatus.failed := by
    simpa [effectiveStatus] using hplan
  have hesearch : effectiveStatus t Node.search ≠ NodeStatus.failed := by
    simpa [effectiveStatus] using hsearch
  have hefilter : effectiveStatus t Node.filter ≠ NodeStatus.failed := by
    simpa [effectiveStatus] using hfilter
  have hereport : effectiveStatus t Node.report ≠ NodeStatus.failed := by
    simpa [effectiveStatus] using hreport
  have hbody : ("# Judgment Report\n\n" ++
      (immaturityStatement ++ ("\n\n" ++ t.judgmentText)) : String) ≠ "" :=
    append_ne_empty_left _ _ (by decide)
  have hrun : (runJob Mode.C p t q).job.status = Status.completed ∧
      (runJob Mode.C p t q).artifact.map ReportArtifact.body
        = some ("# Judgment Report\n\n" ++
            (immaturityStatement ++ ("\n\n" ++ t.judgmentText))) := by
    by_cases hcr : effectiveStatus t Node.crawl = NodeStatus.failed <;>
      by_cases hex : effectiveStatus t Node.extract = NodeStatus.failed <;>
        (rw [runJob_eq];
         simp [execStep, execNode, plainNode, initState, isTerminal, baseNodes,
           failJob, absorbFailure, composeBody, nodeLabel, recordedError,
           assembleReport, hcomp, heplan, hesearch, hefilter, hereport, hcr,
           hex, hbody, g1, g2, g3, g4, g5, g6, g7])
  refine ⟨hrun.1, hrun.2, ?_⟩
  unfold statesImmaturity
  exact ⟨"# Judgment Report\n\n", "\n\n" ++ t.judgmentText, rfl⟩

/-- Closed witness for claim C5: a concrete Mode C run without comparable
entities completes with an immaturity-stating body. -/
theorem claim_C5_witness :
    (runJob Mode.C okPolicy noSourceTrace "q").job.status = Status.completed ∧
    (runJob Mode.C okPolicy noSourceTrace "q").artifact.map ReportArtifact.body
      = some ("# Judgment Report\n\n" ++
          (immaturityStatement ++ ("\n\n" ++ noSourceTrace.judgmentText))) ∧
    statesImmaturity ("# Judgment Report\n\n" ++
      (immaturityStatement ++ ("\n\n" ++ noSourceTrace.judgmentText))) :=
  claim_C5_modeC_judgment okPolicy noSourceTrace "q" (by decide) (by decide)
    (by decide) (by decide) (by decide) (by decide)

/-- Claim C3: in Mode A, any node failure prior to the Report node,
Phase 1 retry exhaustion included, makes the run end Failed with an
artifact embedding no comparison matrix. -/
theorem claim_C3_modeA_zero_tolerance (p : GuardrailPolicy) (t : PortTrace)
    (q : String)
    (h : phase1 p.skeletonRetries t.skeletonAttempts = none ∨
         effectiveStatus t Node.plan = NodeStatus.failed ∨
         effectiveStatus t Node.search = NodeStatus.failed ∨
         effectiveStatus t Node.filter = NodeStatus.failed ∨
         effectiveStatus t Node.crawl = NodeStatus.failed ∨
         effectiveStatus t Node.extract = NodeStatus.failed) :
    (runJob Mode.A p t q).job.status = Status.failed ∧
    (runJob Mode.A p t q).artifact.map (fun a => a.json.comparison_table)
      = some none := by
  by_cases g1 : p.maxSteps < 1
  · rw [runJob_eq]
    simp [execStep, execNode, plainNode, initState, isTerminal, baseNodes,
      failJob, absorbFailure, nodeLabel, recordedError, assembleReport, g1]
  by_cases h1 : effectiveStatus t Node.plan = NodeStatus.failed
  · rw [runJob_eq]
    simp [execStep, execNode, plainNode, initState, isTerminal, baseNodes,
      failJob, absorbFailure, nodeLabel, recordedError, assembleReport, g1, h1]
  by_cases g2 : p.maxSteps < 2
  · rw [runJob_eq]
    simp [execStep, execNode, plainNode, initState, isTerminal, baseNodes,
      failJob, absorbFailure, nodeLabel, recordedError, assembleReport, g1, h1, g2]
  by_cases h2 : effectiveStatus t Node.search = NodeStatus.failed
  · rw [runJob_eq]
    simp [execStep, execNode, plainNode, initState, isTerminal, baseNodes,
      failJob, absorbFailure, nodeLabel, recordedError, assembleReport, g1, h1, g2, h2]
  by_cases g3 : p.maxSteps < 3
  · rw [runJob_eq]
    simp [execStep, execNode, plainNode, initState, isTerminal, baseNodes,
      failJob, absorbFailure, nodeLabel, recordedError, assembleReport,
      g1, h1, g2, h2, g3]
  by_cases h3 : effectiveStatus t Node.filter = NodeStatus.failed
  · rw [runJob_eq]
    simp [execStep, execNode, plainNode, initState, isTerminal, baseNodes,
      failJob, absorbFailure, nodeLabel, recordedError, assembleReport,
      g1, h1, g2, h2, g3, h3]
  by_cases g4 : p.maxSteps < 4
  · rw [runJob_eq]
    simp [execStep, execNode, plainNode, initState, isTerminal, baseNodes,
      failJob, absorbFailure, nodeLabel, recordedError, assembleReport,
      g1, h1, g2, h2, g3, h3, g4]
  by_cases h4 : effectiveStatus t Node.crawl = NodeStatus.failed
  · rw [runJob_eq]
    simp [execStep, execNode, plainNode, initState, isTerminal, baseNodes,
      failJob, absorbFailure, nodeLabel, recordedError, assembleReport,
      g1, h1, g2, h2, g3, h3, g4, h4]
  by_cases g5 : p.maxSteps < 5
  · rw [runJob_eq]
    simp [execStep, execNode, plainNode, initState, isTerminal, baseNodes,
      failJob, absorbFailure, nodeLabel, recordedError, assembleReport,
      g1, h1, g2, h2, g3, h3, g4, h4, g5]
  by_cases h5 : effectiveStatus t Node.extract = NodeStatus.failed
  · rw [runJob_eq]
    simp [execStep, execNode, plainNode, initState, isTerminal, baseNodes,
      failJob, absorbFailure, nodeLabel, recordedError, assembleReport,
      g1, h1, g2, h2, g3, h3, g4, h4, g5, h5]
  by_cases g6 : p.maxSteps < 6
  · rw [runJob_eq]
    simp [execStep, execNode, plainNode, initState, isTerminal, baseNodes,
      failJob, absorbFailure, nodeLabel, recordedError, assembleReport,
      g1, h1, g2, h2, g3, h3, g4, h4, g5, h5, g6]
  by_cases hph : phase1 p.skeletonRetries t.skeletonAttempts = none
  · rw [runJob_eq]
    simp [execStep, execNode, plainNode, initState, isTerminal, baseNodes,
      failJob, absorbFailure, nodeLabel, recordedError, assembleReport, threePhase,
      g1, h1, g2, h2, g3, h3, g4, h4, g5, h5, g6, hph]
  rcases h with h | h | h | h | h | h
  · exact absurd h hph
  · exact absurd h h1
  · exact absurd h h2
  · exact absurd h h3
  · exact absurd h h4
  · exact absurd h h5

/-- Closed witness for claim C3: a concrete Mode A run whose Phase 1
exhausts its retries ends Failed with no matrix in the artifact. -/
theorem claim_C3_witness :
    (runJob Mode.A okPolicy noSourceTrace "q").job.status = Status.failed ∧
    (runJob Mode.A okPolicy noSourceTrace "q").artifact.map
        (fun a => a.json.comparison_table) = some none :=
  claim_C3_modeA_zero_tolerance okPolicy noSourceTrace "q" (Or.inl (by decide))

/-! ### Mode A structural invariant: the comparison matrix is frozen at
Phase 1 and rectangular -/

theorem cons_mem_tails {n : Node} {rest : List Node}
    (h : (n :: rest) ∈ List.tails baseNodes) : rest ∈ List.tails baseNodes := by
  simp [baseNodes, List.tails_cons, List.mem_cons] at h ⊢
  rcases h with h | h | h | h | h | h | h | h <;> simp_all

theorem report_cons_tails {rest : List Node}
    (h : (Node.report :: rest) ∈ List.tails baseNodes) : rest = [] := by
  simpa [baseNodes, List.tails_cons, List.mem_cons] using h

theorem execStep_pending (s : ExecState) (hp : s.job.status = Status.pending) :
    execStep s =
      { s with job := { s.job with status := Status.running, progress := "started" } } := by
  unfold execStep
  rw [if_neg (by rw [hp]; decide), if_pos hp]

theorem execStep_running_nil (s : ExecState) (hr : s.job.status = Status.running)
    (hn : s.remaining = []) :
    execStep s = failJob s "internal: node sequence exhausted without a report" := by
  unfold execStep
  rw [if_neg (by rw [hr]; decide), if_neg (by rw [hr]; decide), hn]

theorem execStep_running_guard (s : ExecState) (n : Node) (rest : List Node)
    (hr : s.job.status = Status.running) (hrem : s.remaining = n :: rest)
    (hg : s.job.maxSteps < s.job.stepCount + 1) :
    execStep s = failJob s "GuardrailExceeded: step budget exceeded" := by
  unfold execStep
  rw [if_neg (by rw [hr]; decide), if_neg (by rw [hr]; decide), hrem]
  simp only [if_pos hg]

theorem execStep_running_exec (s : ExecState) (n : Node) (rest : List Node)
    (hr : s.job.status = Status.running) (hrem : s.remaining = n :: rest)
    (hg : ¬ s.job.maxSteps < s.job.stepCount + 1) :
    execStep s =
      execNode
        { s with
          remaining := rest,
          job := { s.job with
                   stepCount := s.job.stepCount + 1,
                   progress := nodeLabel n } } n := by
  unfold execStep
  rw [if_neg (by rw [hr]; decide), if_neg (by rw [hr]; decide), hrem]
  simp only [if_neg hg]

theorem execNode_compare_A_none (s : ExecState) (hm : s.mode = Mode.A)
    (hph : phase1 s.policy.skeletonRetries s.trace.skeletonAttempts = none) :
    execNode s Node.compare =
      failJob s "StructureValidationFailed: skeleton retries exhausted" := by
  unfold execNode threePhase
  rw [hm, hph]

theorem execNode_compare_A_some (s : ExecState) (sk : Skeleton) (hm : s.mode = Mode.A)
    (hph : phase1 s.policy.skeletonRetries s.trace.skeletonAttempts = some sk) :
    execNode s Node.compare =
      { s with matrix := some (phase2 sk s.trace.cellAnswer),
               summary := s.trace.summaryText } := by
  unfold execNode threePhase
  rw [hm, hph]

theorem execNode_compare_BC (s : ExecState) (hm : s.mode ≠ Mode.A) :
    execNode s Node.compare = s := by
  unfold execNode
  cases hmode : s.mode
  · exact absurd hmode hm
  · rfl
  · rfl

theorem execNode_report_failed (s : ExecState)
    (hf : effectiveStatus s.trace Node.report = NodeStatus.failed) :
    execNode s Node.report =
      { s with
        artifact := some (assembleReport
                           { mode := s.mode, matrix := none, body := none }),
        job := { s.job with
                 status := Status.failed,
                 errors := s.job.errors ++
                   [recordedError Node.report (s.trace.nodeError Node.report)] } } := by
  unfold execNode
  rw [if_pos hf]

theorem execNode_report_ok (s : ExecState)
    (hf : ¬ effectiveStatus s.trace Node.report = NodeStatus.failed) :
    execNode s Node.report =
      { s with
        artifact := some (assembleReport
                           { mode := s.mode, matrix := s.matrix,
                             body := some (composeBody s.mode s.trace s.summary) }),
        job := { s.job with
                 status := (assembleReport
                             { mode := s.mode, matrix := s.matrix,
                               body := some (composeBody s.mode s.trace s.summary) }).terminal } } := by
  unfold execNode
  rw [if_neg hf]

theorem execNode_plan (s : ExecState) :
    execNode s Node.plan = plainNode s Node.plan := rfl

theorem execNode_search (s : ExecState) :
    execNode s Node.search = plainNode s Node.search := rfl

theorem execNode_filter (s : ExecState) :
    execNode s Node.filter = plainNode s Node.filter := rfl

theorem execNode_crawl (s : ExecState) :
    execNode s Node.crawl = plainNode s Node.crawl := rfl

theorem execNode_extract (s : ExecState) :
    execNode s Node.extract = plainNode s Node.extract := rfl

theorem isTerminal_assembleReport (inp : AssemblerInput) :
    isTerminal (assembleReport inp).terminal = true := by
  rcases assembleReport_terminal inp with h | h <;> rw [h] <;> rfl

theorem failJob_invA (p : GuardrailPolicy) (t : PortTrace) (s : ExecState)
    (e : String) (hpol : s.policy = p) (htr : s.trace = t)
    (hrem : s.remaining ∈ List.tails baseNodes) :
    ExecInvA p t (failJob s e) := by
  refine ⟨hpol, htr, hrem, fun hmA => ⟨?_, ?_⟩⟩
  · intro hfalse
    simp [failJob, isTerminal] at hfalse
  · intro hc
    simp [failJob] at hc

theorem plainNode_invA (p : GuardrailPolicy) (t : PortTrace) (s2 : ExecState)
    (n : Node) (hpol : s2.policy = p) (htr : s2.trace = t)
    (hrem : s2.remaining ∈ List.tails baseNodes)
    (hrun : s2.job.status = Status.running)
    (hclause : s2.mode = Mode.A →
      Node.compare ∈ s2.remaining ∨ ∃ M, s2.matrix = some M ∧ MatrixGood p t M) :
    ExecInvA p t (plainNode s2 n) := by
  unfold plainNode
  by_cases hf : effectiveStatus s2.trace n = NodeStatus.failed
  · rw [if_pos hf]
    by_cases habs : s2.mode ≠ Mode.A ∧ (n = Node.crawl ∨ n = Node.extract)
    · rw [if_pos habs]
      refine ⟨hpol, htr, hrem, fun hmA => ⟨?_, ?_⟩⟩
      · intro _
        exact hclause hmA
      · intro hc
        have hc2 : s2.job.status = Status.completed := hc
        rw [hrun] at hc2
        exact absurd hc2 (by decide)
    · rw [if_neg habs]
      exact failJob_invA p t s2 _ hpol htr hrem
  · rw [if_neg hf]
    refine ⟨hpol, htr, hrem, fun hmA => ⟨fun _ => hclause hmA, ?_⟩⟩
    intro hc
    rw [hrun] at hc
    exact absurd hc (by decide)

theorem compareNode_invA (p : GuardrailPolicy) (t : PortTrace)
    (s2 : ExecState) (hpol : s2.policy = p) (htr : s2.trace = t)
    (hrem : s2.remaining ∈ List.tails baseNodes)
    (hrun : s2.job.status = Status.running) :
    ExecInvA p t (execNode s2 Node.compare) := by
  by_cases hmA : s2.mode = Mode.A
  · cases hph : phase1 s2.policy.skeletonRetries s2.trace.skeletonAttempts with
    | none =>
        rw [execNode_compare_A_none _ hmA hph]
        exact failJob_invA p t _ _ hpol htr hrem
    | some sk =>
        have hph0 := hph
        rw [hpol, htr] at hph0
        rw [execNode_compare_A_some _ sk hmA hph]
        refine ⟨hpol, htr, hrem, fun hmA2 => ⟨?_, ?_⟩⟩
        · intro _
          right
          refine ⟨phase2 sk s2.trace.cellAnswer, rfl, sk, hph0, ?_⟩
          rw [htr]
        · intro hc
          have hc2 : s2.job.status = Status.completed := hc
          rw [hrun] at hc2
          exact absurd hc2 (by decide)
  · rw [execNode_compare_BC _ hmA]
    exact ⟨hpol, htr, hrem, fun hmA2 => absurd hmA2 hmA⟩

theorem reportNode_invA (p : GuardrailPolicy) (t : PortTrace)
    (s2 : ExecState) (hpol : s2.policy = p) (htr : s2.trace = t)
    (hrem : s2.remaining ∈ List.tails baseNodes)
    (hgood : s2.mode = Mode.A → ∃ M, s2.matrix = some M ∧ MatrixGood p t M) :
    ExecInvA p t (execNode s2 Node.report) := by
  by_cases hf : effectiveStatus s2.trace Node.report = NodeStatus.failed
  · rw [execNode_report_failed _ hf]
    refine ⟨hpol, htr, hrem, fun hmA => ⟨?_, ?_⟩⟩
    · intro hfalse
      simp [isTerminal] at hfalse
    · intro hc
      simp at hc
  · rw [execNode_report_ok _ hf]
    refine ⟨hpol, htr, hrem, fun hmA => ⟨?_, ?_⟩⟩
    · intro hfalse
      have hfalse2 : isTerminal (assembleReport
          { mode := s2.mode, matrix := s2.matrix,
            body := some (composeBody s2.mode s2.trace s2.summary) }).terminal
            = false := hfalse
      rw [isTerminal_assembleReport] at hfalse2
      cases hfalse2
    · intro hc
      have hc2 : (assembleReport
          { mode := s2.mode, matrix := s2.matrix,
            body := some (composeBody s2.mode s2.trace s2.summary) }).terminal
            = Status.completed := hc
      by_cases hb : composeBody s2.mode s2.trace s2.summary = ""
      · rw [hb, assembleReport_some_empty] at hc2
        exact absurd hc2 (by decide)
      · obtain ⟨M, hM, hMg⟩ := hgood hmA
        refine ⟨_, rfl, M, ?_, hMg⟩
        rw [assembleReport_some s2.mode s2.matrix _ hb]
        exact hM

theorem execStep_invA (p : GuardrailPolicy) (t : PortTrace) (s : ExecState)
    (h : ExecInvA p t s) : ExecInvA p t (execStep s) := by
  obtain ⟨hpol, htr, hrem, hA⟩ := h
  by_cases ht : isTerminal s.job.status = true
  · rw [execStep_of_terminal s ht]
    exact ⟨hpol, htr, hrem, hA⟩
  by_cases hp : s.job.status = Status.pending
  · rw [execStep_pending s hp]
    refine ⟨hpol, htr, hrem, fun hmA => ⟨?_, ?_⟩⟩
    · intro _
      exact (hA hmA).1 (by rw [hp]; rfl)
    · intro hc
      simp at hc
  have hrun : s.job.status = Status.running := by
    cases hst : s.job.status
    case pending => exact absurd hst hp
    case running => rfl
    case completed => rw [hst] at ht; exact absurd rfl ht
    case failed => rw [hst] at ht; exact absurd rfl ht
  cases hrem2 : s.remaining with
  | nil =>
      rw [execStep_running_nil s hrun hrem2]
      exact failJob_invA p t s _ hpol htr hrem
  | cons n rest =>
      have hmem : (n :: rest) ∈ List.tails baseNodes := hrem2 ▸ hrem
      have hrest : rest ∈ List.tails baseNodes := cons_mem_tails hmem
      by_cases hg : s.job.maxSteps < s.job.stepCount + 1
      · rw [execStep_running_guard s n rest hrun hrem2 hg]
        exact failJob_invA p t s _ hpol htr hrem
      rw [execStep_running_exec s n rest hrun hrem2 hg]
      cases n with
      | plan =>
          rw [execNode_plan]
          refine plainNode_invA p t _ _ hpol htr hrest hrun ?_
          intro hmA
          rcases (hA hmA).1 (by rw [hrun]; rfl) with hcm | hgood
          · left
            rw [hrem2] at hcm
            rcases List.mem_cons.mp hcm with hEq | hIn
            · exact absurd hEq (by decide)
            · exact hIn
          · right
            exact hgood
      | search =>
          rw [execNode_search]
          refine plainNode_invA p t _ _ hpol htr hrest hrun ?_
          intro hmA
          rcases (hA hmA).1 (by rw [hrun]; rfl) with hcm | hgood
          · left
            rw [hrem2] at hcm
            rcases List.mem_cons.mp hcm with hEq | hIn
            · exact absurd hEq (by decide)
            · exact hIn
          · right
            exact hgood
      | filter =>
          rw [execNode_filter]
          refine plainNode_invA p t _ _ hpol htr hrest hrun ?_
          intro hmA
          rcases (hA hmA).1 (by rw [hrun]; rfl) with hcm | hgood
          · left
            rw [hrem2] at hcm
            rcases List.mem_cons.mp hcm with hEq | hIn
            · exact absurd hEq (by decide)
            · exact hIn
          · right
            exact hgood
      | crawl =>
          rw [execNode_crawl]
          refine plainNode_invA p t _ _ hpol htr hrest hrun ?_
          intro hmA
          rcases (hA hmA).1 (by rw [hrun]; rfl) with hcm | hgood
          · left
            rw [hrem2] at hcm
            rcases List.mem_cons.mp hcm with hEq | hIn
            · exact absurd hEq (by decide)
            · exact hIn
          · right
            exact hgood
      | extract =>
          rw [execNode_extract]
          refine plainNode_invA p t _ _ hpol htr hrest hrun ?_
          intro hmA
          rcases (hA hmA).1 (by rw [hrun]; rfl) with hcm | hgood
          · left
            rw [hrem2] at hcm
            rcases List.mem_cons.mp hcm with hEq | hIn
            · exact absurd hEq (by decide)
            · exact hIn
          · right
            exact hgood
      | compare =>
          exact compareNode_invA p t _ hpol htr hrest hrun
      | report =>
          have hrnil : rest = [] := report_cons_tails hmem
          refine reportNode_invA p t _ hpol htr hrest ?_
          intro hmA
          rcases (hA hmA).1 (by rw [hrun]; rfl) with hcm | hgood
          · rw [hrem2, hrnil] at hcm
            simp at hcm
          · exact hgood

theorem execNode_mode (s : ExecState) (n : Node) :
    (execNode s n).mode = s.mode := by
  unfold execNode plainNode failJob absorbFailure
  cases n <;> cases hm : s.mode <;> (repeat' split) <;> simp_all

theorem execStep_mode (s : ExecState) : (execStep s).mode = s.mode := by
  unfold execStep
  (repeat' split) <;> first | rfl | exact execNode_mode _ _

theorem runSteps_mode (k : Nat) (s : ExecState) :
    (runSteps k s).mode = s.mode := by
  induction k generalizing s with
  | zero => rfl
  | succ k ih => rw [runSteps_succ, ih, execStep_mode]

theorem runSteps_invA (p : GuardrailPolicy) (t : PortTrace) (k : Nat)
    (s : ExecState) (h : ExecInvA p t s) : ExecInvA p t (runSteps k s) := by
  induction k generalizing s with
  | zero => exact h
  | succ k ih => exact ih (execStep s) (execStep_invA p t s h)

theorem initState_invA (mode : Mode) (p : GuardrailPolicy) (t : PortTrace)
    (q : String) : ExecInvA p t (initState mode p t q) := by
  refine ⟨rfl, rfl, ?_, fun hmA => ⟨?_, ?_⟩⟩
  · show baseNodes ∈ List.tails baseNodes
    decide
  · intro _
    left
    show Node.compare ∈ baseNodes
    decide
  · intro hc
    have hc2 : Status.pending = Status.completed := hc
    exact absurd hc2 (by decide)

/-- Claim C2: every Mode A run that reaches Completed carries an artifact
whose comparison table is exactly the Phase 2 fill of the skeleton that
Phase 1 validated: every dimension row has the identical entity key list,
fixed at the end of Phase 1, and every cell is a short string, a number,
or null. -/
theorem claim_C2_matrix_rectangular (p : GuardrailPolicy) (t : PortTrace)
    (q : String)
    (h : (runJob Mode.A p t q).job.status = Status.completed) :
    ∃ a sk,
      (runJob Mode.A p t q).artifact = some a ∧
      phase1 p.skeletonRetries t.skeletonAttempts = some sk ∧
      a.json.comparison_table = some (phase2 sk t.cellAnswer) ∧
      (phase2 sk t.cellAnswer).map Prod.fst = sk.dims ∧
      (∀ row ∈ phase2 sk t.cellAnswer, row.2.map Prod.fst = sk.entities) ∧
      (∀ row ∈ phase2 sk t.cellAnswer, ∀ c ∈ row.2, cellShort c.2) := by
  have hinv : ExecInvA p t (runJob Mode.A p t q) :=
    runSteps_invA p t 8 _ (initState_invA Mode.A p t q)
  have hmA : (runJob Mode.A p t q).mode = Mode.A := by
    show (runSteps 8 (initState Mode.A p t q)).mode = Mode.A
    rw [runSteps_mode]
    rfl
  obtain ⟨hpol, htr, hrem, hA⟩ := hinv
  obtain ⟨a, ha, M, hTab, sk, hph, hMeq⟩ := (hA hmA).2 h
  refine ⟨a, sk, ha, hph, ?_, ?_, ?_, ?_⟩
  · rw [hTab, hMeq]
  · show (sk.dims.map (fun d =>
        (d, sk.entities.map (fun e => (e, fillCell (t.cellAnswer d e)))))).map
          Prod.fst = sk.dims
    rw [List.map_map]
    have hfun : (Prod.fst ∘ fun d =>
        (d, sk.entities.map (fun e => (e, fillCell (t.cellAnswer d e)))))
          = fun d => d := by
      funext d
      rfl
    rw [hfun, List.map_id']
  · intro row hrow
    simp only [phase2, List.mem_map] at hrow
    obtain ⟨d, hd, hrow⟩ := hrow
    rw [← hrow]
    show (sk.entities.map (fun e => (e, fillCell (t.cellAnswer d e)))).map
        Prod.fst = sk.entities
    rw [List.map_map]
    have hfun : (Prod.fst ∘ fun e => (e, fillCell (t.cellAnswer d e)))
        = fun e => e := by
      funext e
      rfl
    rw [hfun, List.map_id']
  · intro row hrow c hc
    simp only [phase2, List.mem_map] at hrow
    obtain ⟨d, hd, hrow⟩ := hrow
    rw [← hrow] at hc
    simp only [List.mem_map] at hc
    obtain ⟨e, he, hc⟩ := hc
    rw [← hc]
    cases hans : t.cellAnswer d e with
    | value v =>
        show cellShort (CellValue.str (String.mk (v.data.take cellCap)))
        show (String.mk (v.data.take cellCap)).length ≤ cellCap
        show (v.data.take cellCap).length ≤ cellCap
        simp [List.length_take]
    | extraKeys => exact trivial
    | failedGen => exact trivial

/-- Closed witness for claim C2 on a concrete completed Mode A run. -/
theorem claim_C2_witness :
    ∃ a sk,
      (runJob Mode.A okPolicy okTrace "q").artifact = some a ∧
      phase1 okPolicy.skeletonRetries okTrace.skeletonAttempts = some sk ∧
      a.json.comparison_table = some (phase2 sk okTrace.cellAnswer) ∧
      (phase2 sk okTrace.cellAnswer).map Prod.fst = sk.dims ∧
      (∀ row ∈ phase2 sk okTrace.cellAnswer, row.2.map Prod.fst = sk.entities) ∧
      (∀ row ∈ phase2 sk okTrace.cellAnswer, ∀ c ∈ row.2, cellShort c.2) :=
  claim_C2_matrix_rectangular okPolicy okTrace "q" (by decide)

end ResearchAgent
